import Mathlib

/-!
Verification development for the homemetrics extraction pipeline.

The definitions below are a shallow embedding, translated from the Rust
sources of the repository:
  * `src/attachment_parser.rs`  — attachment scanning and content decoding,
  * `src/temperature_extractor.rs` — tabular CSV extraction,
  * `src/blueriot/extractor.rs` — freeform pool-chemistry extraction.

Modelling conventions:
  * Rust `&str` values are modelled as `List Char` (the string's scalar
    values); byte sequences as `List Nat` (each element < 256).
  * `f64` values are modelled exactly: a parsed float is either a finite
    exact rational, an infinity, or NaN; the overflow threshold of IEEE
    round-to-nearest (2^1024 - 2^970) decides between a finite value and an
    infinity.  Rounding of in-range decimal literals to the nearest binary64
    is abstracted away (values are kept as exact rationals), as are
    floating-point comparisons against exactly representable bounds.
  * Library calls of the program (the `base64` crate's STANDARD engine, the
    `csv` reader in flexible mode for quote-free content, `chrono`'s
    `parse_from_str`, Rust's `str::parse::<f64>/<i32>`, the `regex` crate's
    leftmost-first search for the concrete patterns used) are modelled by
    executable Lean functions reproducing their documented behaviour on the
    inputs the program feeds them.
-/

set_option maxRecDepth 8192

/-- Rust `char::is_whitespace` (Unicode `White_Space`), by code point. -/
def rustIsWhitespace (c : Char) : Bool :=
  let n := c.toNat
  (9 ≤ n && n ≤ 13) || n == 32 || n == 0x85 || n == 0xA0 || n == 0x1680 ||
  (0x2000 ≤ n && n ≤ 0x200A) || n == 0x2028 || n == 0x2029 || n == 0x202F ||
  n == 0x205F || n == 0x3000

/-- Rust `str::trim`: drop leading and trailing whitespace. -/
def rustTrim (l : List Char) : List Char :=
  ((l.dropWhile rustIsWhitespace).reverse.dropWhile rustIsWhitespace).reverse

/-- UTF-8 encoding of one scalar value (Rust `str::as_bytes`, per char). -/
def utf8Char (c : Char) : List Nat :=
  let n := c.toNat
  if n < 0x80 then [n]
  else if n < 0x800 then [0xC0 + n / 64, 0x80 + n % 64]
  else if n < 0x10000 then
    [0xE0 + n / 4096, 0x80 + (n / 64) % 64, 0x80 + n % 64]
  else
    [0xF0 + n / 0x40000, 0x80 + (n / 4096) % 64, 0x80 + (n / 64) % 64,
     0x80 + n % 64]

/-- Rust `str::as_bytes`: UTF-8 bytes of the whole string. -/
def utf8Bytes (l : List Char) : List Nat :=
  (l.map utf8Char).flatten

/-- One character of the ratio count of `is_base64_content`:
`c.is_ascii_alphanumeric() || c == '+' || c == '/'`. -/
def isB64CoreChar (c : Char) : Bool :=
  c.isAlphanum || c == '+' || c == '/'

/-- One character of the validity check of `is_base64_content`:
`c.is_ascii_alphanumeric() || c == '+' || c == '/' || c == '='`. -/
def isB64AlphaChar (c : Char) : Bool :=
  isB64CoreChar c || c == '='

/-- `AttachmentParser::is_base64_content` (attachment_parser.rs:318-338).
The `f64` ratio test `count / len > 0.8` is modelled exactly as
`5 * count > 4 * len` (both sides are exact in `f64` for any feasible
length, and `0.8` rounds above the rational `4/5`). -/
def is_base64_content (content : List Char) : Bool :=
  let clean := content.filter (fun c => !(rustIsWhitespace c))
  if clean.isEmpty then false
  else
    let valid := clean.all isB64AlphaChar
    let ratioOk := 5 * (clean.filter isB64CoreChar).length > 4 * clean.length
    valid && ratioOk && decide (clean.length > 10)

/-- Value of one base64 alphabet character (standard alphabet). -/
def b64val (c : Char) : Option Nat :=
  if 'A' ≤ c ∧ c ≤ 'Z' then some (c.toNat - 65)
  else if 'a' ≤ c ∧ c ≤ 'z' then some (c.toNat - 71)
  else if '0' ≤ c ∧ c ≤ '9' then some (c.toNat + 4)
  else if c = '+' then some 62
  else if c = '/' then some 63
  else none

/-- The `base64` crate's `general_purpose::STANDARD` decode: canonical
padding required (length divisible by 4, `=` only at the end), no
whitespace tolerated, nonzero trailing bits rejected. -/
def b64decode : List Char → Option (List Nat)
  | [] => some []
  | c1 :: c2 :: c3 :: c4 :: rest =>
    match b64val c1, b64val c2 with
    | some v1, some v2 =>
      if c3 = '=' then
        if c4 = '=' ∧ rest = [] ∧ v2 % 16 = 0 then some [v1 * 4 + v2 / 16]
        else none
      else
        match b64val c3 with
        | some v3 =>
          if c4 = '=' then
            if rest = [] ∧ v3 % 4 = 0 then
              some [v1 * 4 + v2 / 16, v2 % 16 * 16 + v3 / 4]
            else none
          else
            match b64val c4 with
            | some v4 =>
              (b64decode rest).map
                (fun bs =>
                  (v1 * 4 + v2 / 16) :: (v2 % 16 * 16 + v3 / 4) ::
                    (v3 % 4 * 64 + v4) :: bs)
            | none => none
        | none => none
    | _, _ => none
  | _ => none

/-- `content_str.replace(['\r', '\n', ' '], "")` of the decoder's first
base64 attempt (attachment_parser.rs:292). -/
def stripCRLFSpace (l : List Char) : List Char :=
  l.filter (fun c => !(c == '\r' || c == '\n' || c == ' '))

/-- `AttachmentParser::is_quoted_printable_content`
(attachment_parser.rs:340-344): contains `=` and more than 2 of them. -/
def is_quoted_printable_content (content : List Char) : Bool :=
  content.any (fun c => c == '=') &&
  decide ((content.filter (fun c => c == '=')).length > 2)

/-- Rust `char::to_digit(16)`. -/
def hexVal (c : Char) : Option Nat :=
  if '0' ≤ c ∧ c ≤ '9' then some (c.toNat - 48)
  else if 'a' ≤ c ∧ c ≤ 'f' then some (c.toNat - 87)
  else if 'A' ≤ c ∧ c ≤ 'F' then some (c.toNat - 55)
  else none

/-- Rust `ch as u8`: truncation of the scalar value to 8 bits. -/
def charAsU8 (c : Char) : Nat := c.toNat % 256

/-- The `(chars.next(), chars.next())` pair of the `=` arm of
`decode_quoted_printable`: `some` exactly when both chars are hex digits,
carrying the decoded byte. -/
def hexPair (h1 h2 : Char) : Option Nat :=
  match hexVal h1, hexVal h2 with
  | some d1, some d2 => some (d1 * 16 + d2)
  | _, _ => none

/-- Loop of `AttachmentParser::decode_quoted_printable`
(attachment_parser.rs:346-377), with the output built so far in `acc`
(the source pushes into `result` and tests `result.is_empty()`).
  * `=` followed by two chars: decoded byte when both are hex digits,
    otherwise the literal `=` and both chars (as `u8`) are pushed;
  * `=` with fewer than two chars remaining: `=` is pushed and the
    remaining char (if any) is consumed by the two `chars.next()` calls;
  * `\r`: dropped; when directly followed by `\n`, that `\n` is skipped
    as well (`chars.next()` inside the CR arm);
  * `\n`: pushed only when the output is non-empty;
  * any other char: pushed as `u8`. -/
def decodeQPGo : List Nat → List Char → List Nat
  | acc, [] => acc
  | acc, '=' :: h1 :: h2 :: rest =>
    match hexPair h1 h2 with
    | some b => decodeQPGo (acc ++ [b]) rest
    | none => decodeQPGo (acc ++ [61, charAsU8 h1, charAsU8 h2]) rest
  | acc, '=' :: _ => acc ++ [61]
  | acc, '\r' :: '\n' :: rest => decodeQPGo acc rest
  | acc, '\r' :: rest => decodeQPGo acc rest
  | acc, '\n' :: rest =>
    if acc.isEmpty then decodeQPGo acc rest else decodeQPGo (acc ++ [10]) rest
  | acc, c :: rest => decodeQPGo (acc ++ [charAsU8 c]) rest

/-- `AttachmentParser::decode_quoted_printable` (always `Ok` in the
source; the byte list is the payload). -/
def decode_quoted_printable (content : List Char) : List Nat :=
  decodeQPGo [] content

/-- `AttachmentParser::decode_attachment_content`
(attachment_parser.rs:284-316).  The `Result` return type is kept; the
source never constructs the `Err` case. -/
def decode_attachment_content (content : List Char) : Except Unit (List Nat) :=
  let t := rustTrim content
  if is_base64_content t then
    match b64decode (stripCRLFSpace t) with
    | some d => .ok d
    | none =>
      match b64decode t with
      | some d => .ok d
      | none => .ok (utf8Bytes t)
  else if is_quoted_printable_content t then
    .ok (decode_quoted_printable t)
  else
    .ok (utf8Bytes t)

deriving instance DecidableEq for Except

example : decode_attachment_content ("SGVsbG8gV29ybGQh".data) =
    .ok [72, 101, 108, 108, 111, 32, 87, 111, 114, 108, 100, 33] := by decide

example : decode_attachment_content ("a===b\r\nc".data) =
    .ok [97, 61, 61, 61, 98, 99] := by decide

example : decode_attachment_content ("x".data) = .ok [120] := by decide

/-- Clause-by-clause description of the quoted-printable decoder, following
the amended wording of the specification.  The flag `e` records whether the
output produced so far is empty (needed only for the leading-`\n` rule):
  * `=XX` with `XX` valid hex digits emits the decoded byte;
  * a malformed `=` sequence emits the literal `=` plus the two following
    chars unmodified (as `u8`);
  * `=` with fewer than two following chars emits `=` and ends (the
    remaining char, if any, is consumed);
  * a `\r\n` pair is swallowed entirely — both the `\r` and the `\n` are
    dropped;
  * a lone `\r` is dropped;
  * a `\n` (not preceded by `\r`) that would be the very first byte of
    output is dropped, otherwise kept;
  * any other char is emitted as `u8`. -/
def specQPGo : Bool → List Char → List Nat
  | _, [] => []
  | _, '=' :: h1 :: h2 :: rest =>
    match hexPair h1 h2 with
    | some b => b :: specQPGo false rest
    | none => 61 :: charAsU8 h1 :: charAsU8 h2 :: specQPGo false rest
  | _, '=' :: _ => [61]
  | e, '\r' :: '\n' :: rest => specQPGo e rest
  | e, '\r' :: rest => specQPGo e rest
  | e, '\n' :: rest => if e then specQPGo e rest else 10 :: specQPGo false rest
  | _, c :: rest => charAsU8 c :: specQPGo false rest

theorem isEmpty_append_cons (acc : List Nat) (x : Nat) (t : List Nat) :
    (acc ++ x :: t).isEmpty = false := by
  cases acc <;> rfl

theorem decodeQPGo_eq_specQPGo (acc : List Nat) (l : List Char) :
    decodeQPGo acc l = acc ++ specQPGo acc.isEmpty l := by
  induction acc, l using decodeQPGo.induct <;>
    simp_all [decodeQPGo, specQPGo, List.isEmpty_iff, isEmpty_append_cons]

theorem b64AlphaChar_not_ws (c : Char) (h : isB64AlphaChar c = true) :
    rustIsWhitespace c = false := by
  unfold isB64AlphaChar isB64CoreChar Char.isAlphanum Char.isAlpha Char.isUpper
    Char.isLower Char.isDigit at h
  unfold rustIsWhitespace
  simp only [Bool.or_eq_true, Bool.and_eq_true, decide_eq_true_eq,
    beq_iff_eq] at h
  have hn : 43 ≤ c.toNat ∧ c.toNat ≤ 122 := by
    rcases h with ((((h1 | h2) | h3) | h4) | h5) | h6
    · obtain ⟨ha, hb⟩ := h1
      exact ⟨by have : (65 : Nat) ≤ c.toNat := ha; omega,
             by have : c.toNat ≤ (90 : Nat) := hb; omega⟩
    · obtain ⟨ha, hb⟩ := h2
      exact ⟨by have : (97 : Nat) ≤ c.toNat := ha; omega,
             by have : c.toNat ≤ (122 : Nat) := hb; omega⟩
    · obtain ⟨ha, hb⟩ := h3
      exact ⟨by have : (48 : Nat) ≤ c.toNat := ha; omega,
             by have : c.toNat ≤ (57 : Nat) := hb; omega⟩
    · subst h4; exact ⟨by decide, by decide⟩
    · subst h5; exact ⟨by decide, by decide⟩
    · subst h6; exact ⟨by decide, by decide⟩
  obtain ⟨ha, hb⟩ := hn
  simp only [Bool.or_eq_false_iff, Bool.and_eq_false_iff]
  refine ⟨⟨⟨⟨⟨⟨⟨⟨⟨⟨?_, ?_⟩, ?_⟩, ?_⟩, ?_⟩, ?_⟩, ?_⟩, ?_⟩, ?_⟩, ?_⟩, ?_⟩ <;>
    simp only [decide_eq_false_iff_not, beq_eq_false_iff_ne, ne_eq,
      Bool.and_eq_false_iff, decide_eq_false_iff_not] <;> omega

/-- The characters removed by the decoder's whitespace strip are Unicode
whitespace, so stripping before or after `is_base64_content`'s Unicode
filter agrees whenever the stripped remainder is in the base64 alphabet. -/
theorem clean_eq_strip (t : List Char)
    (h : ∀ ch ∈ stripCRLFSpace t, isB64AlphaChar ch = true) :
    t.filter (fun c => !(rustIsWhitespace c)) = stripCRLFSpace t := by
  unfold stripCRLFSpace at *
  apply List.filter_congr
  intro x hx
  by_cases hxs : (x == '\r' || x == '\n' || x == ' ') = true
  · rcases Bool.or_eq_true _ _ |>.mp hxs with h' | h'
    · rcases Bool.or_eq_true _ _ |>.mp h' with h'' | h''
      · rw [beq_iff_eq] at h''; subst h''; decide
      · rw [beq_iff_eq] at h''; subst h''; decide
    · rw [beq_iff_eq] at h'; subst h'; decide
  · have hxs' : (x == '\r' || x == '\n' || x == ' ') = false :=
      Bool.eq_false_iff.mpr hxs
    have hmem : x ∈ t.filter (fun c => !(c == '\r' || c == '\n' || c == ' ')) := by
      rw [List.mem_filter]
      exact ⟨hx, by rw [hxs']; rfl⟩
    have hb := b64AlphaChar_not_ws x (h x hmem)
    rw [hb, hxs']

theorem is_base64_content_of_stripped (t : List Char)
    (h1 : stripCRLFSpace t ≠ [])
    (h2 : (stripCRLFSpace t).length > 10)
    (h3 : ∀ ch ∈ stripCRLFSpace t, isB64AlphaChar ch = true)
    (h4 : 5 * ((stripCRLFSpace t).filter isB64CoreChar).length >
          4 * (stripCRLFSpace t).length) :
    is_base64_content t = true := by
  unfold is_base64_content
  rw [clean_eq_strip t h3]
  rw [if_neg (by simp [List.isEmpty_iff, h1])]
  refine Bool.and_eq_true _ _ |>.mpr ⟨Bool.and_eq_true _ _ |>.mpr ⟨?_, ?_⟩, ?_⟩
  · exact List.all_eq_true.mpr h3
  · exact decide_eq_true h4
  · exact decide_eq_true h2

/-- C1: for every content-block string, the Content Decoder returns a byte
sequence and never fails; when neither the base64 branch nor the
quoted-printable branch yields a decoding, it falls back to the raw UTF-8
bytes of the trimmed input, so the error result of
`decode_attachment_content` is unreachable for all inputs. -/
theorem C1_decoder_never_fails :
    (∀ s, ∃ b, decode_attachment_content s = .ok b) ∧
    (∀ s, is_base64_content (rustTrim s) = false →
      is_quoted_printable_content (rustTrim s) = false →
      decode_attachment_content s = .ok (utf8Bytes (rustTrim s))) ∧
    (∀ s, is_base64_content (rustTrim s) = true →
      b64decode (stripCRLFSpace (rustTrim s)) = none →
      b64decode (rustTrim s) = none →
      decode_attachment_content s = .ok (utf8Bytes (rustTrim s))) := by
  refine ⟨fun s => ?_, fun s hb hq => ?_, fun s hb h1 h2 => ?_⟩
  · unfold decode_attachment_content
    cases hb : is_base64_content (rustTrim s)
    · cases hq : is_quoted_printable_content (rustTrim s) <;> simp [hb, hq]
    · cases h1 : b64decode (stripCRLFSpace (rustTrim s)) <;>
        cases h2 : b64decode (rustTrim s) <;> simp [hb, h1, h2]
  · unfold decode_attachment_content
    simp [hb, hq]
  · unfold decode_attachment_content
    simp [hb, h1, h2]

/-- Witness for C1: the conditional clauses evaluated at concrete inputs
(a plain-text block, and a block that passes the base64 heuristic but
fails both decode attempts). -/
theorem C1_decoder_never_fails_witness :
    decode_attachment_content ("x".data) =
      .ok (utf8Bytes (rustTrim ("x".data))) ∧
    decode_attachment_content ("AAAAAAAAAAAA=".data) =
      .ok (utf8Bytes (rustTrim ("AAAAAAAAAAAA=".data))) :=
  ⟨C1_decoder_never_fails.2.1 ("x".data) (by decide) (by decide),
   C1_decoder_never_fails.2.2 ("AAAAAAAAAAAA=".data) (by decide) (by decide)
     (by decide)⟩

/-- C2 counterexample: the claim reads its hypotheses with Unicode
whitespace (the notion `is_base64_content` filters by), but the decoder
strips only CR, LF and space.  The input below contains a tab: its
Unicode-whitespace-stripped form satisfies every hypothesis of the claim
and decodes under standard base64, yet `decode_attachment_content`
returns the raw UTF-8 bytes of the input (tab included), not that base64
decoding. -/
theorem C2_counterexample :
    (("SGVsbG8g\tV29ybGQh".data).filter (fun c => !(rustIsWhitespace c)) =
      "SGVsbG8gV29ybGQh".data) ∧
    ("SGVsbG8gV29ybGQh".data).length > 10 ∧
    ("SGVsbG8gV29ybGQh".data).all isB64AlphaChar = true ∧
    5 * (("SGVsbG8gV29ybGQh".data).filter isB64CoreChar).length >
      4 * ("SGVsbG8gV29ybGQh".data).length ∧
    b64decode ("SGVsbG8gV29ybGQh".data) =
      some [72, 101, 108, 108, 111, 32, 87, 111, 114, 108, 100, 33] ∧
    decode_attachment_content ("SGVsbG8g\tV29ybGQh".data) =
      .ok [83, 71, 86, 115, 98, 71, 56, 103, 9, 86, 50, 57, 121, 98, 71, 81,
           104] ∧
    ([83, 71, 86, 115, 98, 71, 56, 103, 9, 86, 50, 57, 121, 98, 71, 81,
      104] : List Nat) ≠
      [72, 101, 108, 108, 111, 32, 87, 111, 114, 108, 100, 33] := by decide

/-- C2 (amended): for every string s whose trimmed and CR/LF/space-stripped
form is non-empty, longer than 10 characters, consists only of characters
from A-Za-z0-9+/=, and has a ratio of alphanumeric plus `+` plus `/`
characters over its length strictly greater than 0.8, `decode(s)` equals
the standard base64 decoding of the stripped form when that succeeds; if
it fails, decode retries standard base64 once on the trimmed un-stripped
string; if that also fails the base64 branch is abandoned and the raw
bytes of the trimmed input are returned. -/
theorem C2_base64_branch (s : List Char)
    (h1 : stripCRLFSpace (rustTrim s) ≠ [])
    (h2 : (stripCRLFSpace (rustTrim s)).length > 10)
    (h3 : ∀ ch ∈ stripCRLFSpace (rustTrim s), isB64AlphaChar ch = true)
    (h4 : 5 * ((stripCRLFSpace (rustTrim s)).filter isB64CoreChar).length >
          4 * (stripCRLFSpace (rustTrim s)).length) :
    (∀ b, b64decode (stripCRLFSpace (rustTrim s)) = some b →
        decode_attachment_content s = .ok b) ∧
    (∀ b, b64decode (stripCRLFSpace (rustTrim s)) = none →
        b64decode (rustTrim s) = some b →
        decode_attachment_content s = .ok b) ∧
    (b64decode (stripCRLFSpace (rustTrim s)) = none →
        b64decode (rustTrim s) = none →
        decode_attachment_content s = .ok (utf8Bytes (rustTrim s))) := by
  have hb := is_base64_content_of_stripped (rustTrim s) h1 h2 h3 h4
  refine ⟨fun b hb1 => ?_, fun b hb1 hb2 => ?_, fun hb1 hb2 => ?_⟩
  · unfold decode_attachment_content
    simp [hb, hb1]
  · unfold decode_attachment_content
    simp [hb, hb1, hb2]
  · unfold decode_attachment_content
    simp [hb, hb1, hb2]

/-- Witness for C2 at a concrete valid base64 string. -/
theorem C2_base64_branch_witness :
    decode_attachment_content ("SGVsbG8gV29ybGQh".data) =
      .ok [72, 101, 108, 108, 111, 32, 87, 111, 114, 108, 100, 33] :=
  (C2_base64_branch ("SGVsbG8gV29ybGQh".data) (by decide) (by decide)
    (by decide) (by decide)).1 _ (by decide)

/-- C3 counterexample: the claim states that the `\r` of a `\r\n` pair is
swallowed and the following `\n` is then processed normally (hence kept
when output is non-empty).  In the code the `\n` of a `\r\n` pair is
skipped together with the `\r`: on the input below (which reaches the
quoted-printable branch: 3 `=` characters), the decoded output contains
no byte 10 even though the output before the `\r\n` is non-empty. -/
theorem C3_counterexample :
    is_quoted_printable_content (rustTrim ("a===b\r\nc".data)) = true ∧
    decode_attachment_content ("a===b\r\nc".data) =
      .ok [97, 61, 61, 61, 98, 99] ∧
    ¬ (10 ∈ decode_quoted_printable ("a===b\r\nc".data)) := by decide

/-- C3 (amended): for every input that reaches the quoted-printable branch,
decoding emits: for each `=XX` with XX valid hex digits, the decoded byte;
for a malformed `=` sequence, the literal `=` plus the two following
characters unmodified; a `=` with fewer than two following characters
emits `=` and ends; each `\r\n` pair is swallowed entirely (both the `\r`
and the `\n` are dropped); a lone `\r` is dropped; a `\n` that would be
the very first byte of output is dropped, otherwise kept. -/
theorem C3_quoted_printable :
    (∀ l, decode_quoted_printable l = specQPGo true l) ∧
    (∀ s, is_base64_content (rustTrim s) = false →
      is_quoted_printable_content (rustTrim s) = true →
      decode_attachment_content s = .ok (specQPGo true (rustTrim s))) := by
  have key : ∀ l, decode_quoted_printable l = specQPGo true l := by
    intro l
    have h := decodeQPGo_eq_specQPGo [] l
    simpa [decode_quoted_printable] using h
  refine ⟨key, fun s hb hq => ?_⟩
  unfold decode_attachment_content
  simp [hb, hq, key]

/-- Witness for C3 at a concrete quoted-printable block. -/
theorem C3_quoted_printable_witness :
    decode_attachment_content ("a=41=zzb=4Ac\r\nd".data) =
      .ok (specQPGo true (rustTrim ("a=41=zzb=4Ac\r\nd".data))) ∧
    specQPGo true (rustTrim ("a=41=zzb=4Ac\r\nd".data)) =
      [97, 65, 61, 122, 122, 98, 74, 99, 100] :=
  ⟨C3_quoted_printable.2 ("a=41=zzb=4Ac\r\nd".data) (by decide) (by decide),
   by decide⟩

/-- Record splitting of the `csv` reader's default terminator
(`Terminator::CRLF`): records end at `\r\n`, `\r` or `\n`; completely
empty records are skipped (see `csvRecords`). -/
def splitRecs : List Char → List (List Char)
  | [] => [[]]
  | '\r' :: '\n' :: rest => [] :: splitRecs rest
  | '\r' :: rest => [] :: splitRecs rest
  | '\n' :: rest => [] :: splitRecs rest
  | c :: rest =>
    match splitRecs rest with
    | h :: t => (c :: h) :: t
    | [] => [[c]]

/-- Field splitting on the default `,` delimiter. -/
def splitComma : List Char → List (List Char)
  | [] => [[]]
  | ',' :: rest => [] :: splitComma rest
  | c :: rest =>
    match splitComma rest with
    | h :: t => (c :: h) :: t
    | [] => [[c]]

/-- The record stream of `csv::ReaderBuilder::new().has_headers(true)
.flexible(true)` for quote-free content: records split at line
terminators, empty lines skipped, fields split on commas; `flexible`
means records of any width are produced without error. -/
def csvRecords (content : List Char) : List (List (List Char)) :=
  ((splitRecs content).filter (fun l => !l.isEmpty)).map splitComma

/-- Take up to `max` leading ASCII digits (`chrono`'s numeric scanner). -/
def takeDigits : Nat → List Char → List Char × List Char
  | 0, l => ([], l)
  | _ + 1, [] => ([], [])
  | n + 1, c :: rest =>
    if c.isDigit then
      let (ds, r) := takeDigits n rest
      (c :: ds, r)
    else ([], c :: rest)

/-- Expect one literal character. -/
def expectChar (c : Char) : List Char → Option (List Char)
  | x :: rest => if x = c then some rest else none
  | [] => none

/-- Numeric value of a digit string. -/
def natOfDigits (l : List Char) : Nat :=
  l.foldl (fun a c => 10 * a + (c.toNat - 48)) 0

def isLeapYear (y : Nat) : Bool :=
  y % 4 == 0 && (y % 100 != 0 || y % 400 == 0)

def daysInMonth (y m : Nat) : Nat :=
  if m = 2 then (if isLeapYear y then 29 else 28)
  else if m = 4 ∨ m = 6 ∨ m = 9 ∨ m = 11 then 30
  else 31

/-- A parsed wall-clock instant (the `DateTime<Utc>` produced by
`parse_xsense_timestamp`; naive values are reinterpreted as UTC, so the
calendar fields are the identity of the instant). -/
structure XTimestamp where
  year : Nat
  month : Nat
  day : Nat
  hour : Nat
  minute : Nat
deriving DecidableEq

/-- `TemperatureExtractor::parse_xsense_timestamp`
(temperature_extractor.rs:136-143): `chrono`
`NaiveDateTime::parse_from_str(s, "%Y/%m/%d %H:%M")`.  Numeric items skip
leading whitespace and read at most 4 (year) or 2 digits; literals match
exactly; the whole input must be consumed; the calendar and clock fields
are validated. -/
def parse_xsense_timestamp (l : List Char) : Option XTimestamp :=
  let s0 := l.dropWhile rustIsWhitespace
  let (yds, s1) := takeDigits 4 s0
  if yds.isEmpty then none else
  match expectChar '/' s1 with
  | none => none
  | some s2 =>
    let (mds, s3) := takeDigits 2 (s2.dropWhile rustIsWhitespace)
    if mds.isEmpty then none else
    match expectChar '/' s3 with
    | none => none
    | some s4 =>
      let (dds, s5) := takeDigits 2 (s4.dropWhile rustIsWhitespace)
      if dds.isEmpty then none else
      let (hds, s7) := takeDigits 2 (s5.dropWhile rustIsWhitespace)
      if hds.isEmpty then none else
      match expectChar ':' s7 with
      | none => none
      | some s8 =>
        let (mins, s9) := takeDigits 2 (s8.dropWhile rustIsWhitespace)
        if mins.isEmpty then none else
        if !s9.isEmpty then none else
        let y := natOfDigits yds
        let mo := natOfDigits mds
        let d := natOfDigits dds
        let h := natOfDigits hds
        let mi := natOfDigits mins
        if 1 ≤ mo ∧ mo ≤ 12 ∧ 1 ≤ d ∧ d ≤ daysInMonth y mo ∧ h ≤ 23 ∧ mi ≤ 59
        then some ⟨y, mo, d, h, mi⟩
        else none

/-- A parsed `f64`: a finite exact rational, an infinity, or NaN. -/
inductive FVal where
  | fin (q : ℚ)
  | inf (neg : Bool)
  | nan
deriving DecidableEq

/-- `true` exactly on finite values. -/
def FVal.isFinite : FVal → Bool
  | .fin _ => true
  | _ => false

/-- Exact decimal magnitudes at or above this round to f64 infinity
(round-to-nearest overflow threshold `2^1024 - 2^970`). -/
def f64Threshold : ℚ := ((2 ^ 1024 - 2 ^ 970 : Nat) : ℚ)

/-- Build the `f64` value of a parsed decimal `±D × 10^(e10 - fracLen)`,
overflowing to an infinity at the IEEE threshold. -/
def mkF64 (neg : Bool) (d : Nat) (e10 : Int) (fracLen : Nat) : FVal :=
  let ex : Int := e10 - fracLen
  let mag : ℚ :=
    if 0 ≤ ex then ((d * 10 ^ ex.toNat : Nat) : ℚ)
    else mkRat d (10 ^ (-ex).toNat)
  if mag < f64Threshold then .fin (if neg then -mag else mag) else .inf neg

/-- Rust `str::parse::<f64>`: optional sign; `inf`/`infinity`/`nan`
(ASCII case-insensitive); otherwise digits with optional fraction and
optional exponent, at least one mantissa digit, the input string fully
consumed. -/
def rustParseF64 (l : List Char) : Option FVal :=
  let signAndRest : Bool × List Char :=
    match l with
    | '+' :: t => (false, t)
    | '-' :: t => (true, t)
    | t => (false, t)
  let neg := signAndRest.1
  let r := signAndRest.2
  let low := r.map Char.toLower
  if low = "inf".data ∨ low = "infinity".data then some (.inf neg)
  else if low = "nan".data then some FVal.nan
  else
    let ids := r.takeWhile Char.isDigit
    let r1 := r.dropWhile Char.isDigit
    let fracAndRest : List Char × List Char :=
      match r1 with
      | '.' :: t => (t.takeWhile Char.isDigit, t.dropWhile Char.isDigit)
      | _ => ([], r1)
    let fds := fracAndRest.1
    let r2 := fracAndRest.2
    if ids.isEmpty && fds.isEmpty then none
    else
      match r2 with
      | [] => some (mkF64 neg (natOfDigits (ids ++ fds)) 0 fds.length)
      | e :: t =>
        if e = 'e' ∨ e = 'E' then
          let esignAndRest : Bool × List Char :=
            match t with
            | '+' :: u => (false, u)
            | '-' :: u => (true, u)
            | u => (false, u)
          let eneg := esignAndRest.1
          let t1 := esignAndRest.2
          let eds := t1.takeWhile Char.isDigit
          let t2 := t1.dropWhile Char.isDigit
          if eds.isEmpty || !t2.isEmpty then none
          else
            let ev : Int :=
              if eneg then -(natOfDigits eds : Int) else (natOfDigits eds : Int)
            some (mkF64 neg (natOfDigits (ids ++ fds)) ev fds.length)
        else none

example : rustParseF64 ("15.0".data) = some (.fin 15) := by decide
example : rustParseF64 ("inf".data) = some (.inf false) := by decide
example : rustParseF64 ("abc".data) = none := by decide

/-- Errors of the tabular CSV extractor, with the context the source
attaches (`anyhow` context strings carrying the offending value and the
1-based physical line number `line_num + 2`). -/
inductive CsvError where
  | formatError (found : Nat)
  | timestampError (value : List Char) (line : Nat)
  | temperatureError (value : List Char) (line : Nat)
  | humidityError (value : List Char) (line : Nat)
deriving DecidableEq

/-- `TemperatureReading` (temperature_extractor.rs:11-18). -/
structure TemperatureReading where
  sensor_id : List Char
  timestamp : XTimestamp
  temperature : FVal
  humidity : Option FVal
  location : Option (List Char)
deriving DecidableEq

/-- The record loop of `TemperatureExtractor::extract_from_xsense_csv`
(temperature_extractor.rs:100-130): `i` is the 0-based record index
(`line_num`); a record with fewer than 3 fields is skipped; a timestamp,
temperature or humidity that fails to parse aborts the whole extraction
with the offending value and line number `i + 2`; otherwise a reading is
pushed and the loop continues. -/
def processRows (sensor : List Char) :
    Nat → List (List (List Char)) → Except CsvError (List TemperatureReading)
  | _, [] => .ok []
  | i, r :: rest =>
    if r.length < 3 then processRows sensor (i + 1) rest
    else
      match parse_xsense_timestamp (r.getD 0 []) with
      | none => .error (.timestampError (r.getD 0 []) (i + 2))
      | some ts =>
        match rustParseF64 (r.getD 1 []) with
        | none => .error (.temperatureError (r.getD 1 []) (i + 2))
        | some temp =>
          match rustParseF64 (r.getD 2 []) with
          | none => .error (.humidityError (r.getD 2 []) (i + 2))
          | some hum =>
            (processRows sensor (i + 1) rest).map
              (fun rs => ⟨sensor, ts, temp, some hum, some sensor⟩ :: rs)

/-- `TemperatureExtractor::extract_from_xsense_csv`
(temperature_extractor.rs:69-134): the header record must have at least 3
columns, else the extraction fails; then the data records are processed.
The content is modelled after its UTF-8 (possibly lossy) decoding to a
char sequence. -/
def extract_from_xsense_csv (content : List Char) (sensor : List Char) :
    Except CsvError (List TemperatureReading) :=
  let recs := csvRecords content
  let headers := recs.getD 0 []
  if headers.length < 3 then .error (.formatError headers.length)
  else processRows sensor 0 (recs.drop 1)

/-- Exact prefix match, returning the remainder. -/
def stripPrefixList : List Char → List Char → Option (List Char)
  | [], l => some l
  | _ :: _, [] => none
  | p :: ps, c :: cs => if c = p then stripPrefixList ps cs else none

/-- The literal part of the regex `Thermo-([^_]+)_`. -/
def thermoPat : List Char := ['T', 'h', 'e', 'r', 'm', 'o', '-']

/-- Leftmost-first search of the regex `Thermo-([^_]+)_` used by
`extract_sensor_name`: at each start position, the literal `Thermo-` must
match, followed by a non-empty run of non-`_` characters ended by a `_`;
the capture is that run. -/
def thermoCapture : List Char → Option (List Char)
  | [] => none
  | c :: rest =>
    match stripPrefixList thermoPat (c :: rest) with
    | some after =>
      let run := after.takeWhile (fun ch => ch ≠ '_')
      if run ≠ [] ∧ run.length < after.length then some run
      else thermoCapture rest
    | none => thermoCapture rest

/-- `TemperatureExtractor::extract_sensor_name`
(temperature_extractor.rs:50-67): the capture of `Thermo-([^_]+)_` when
the regex matches, otherwise `filename.split('.').next()` — the prefix of
the filename before its first `.`. -/
def extract_sensor_name (filename : List Char) : List Char :=
  match thermoCapture filename with
  | some name => name
  | none => filename.takeWhile (fun c => c ≠ '.')

/-- The `.csv` route of `TemperatureExtractor::extract_from_attachment`
(temperature_extractor.rs:23-48): derive the sensor name from the
filename, then run the X-Sense CSV extractor on the content. -/
def extract_from_attachment_csv (filename content : List Char) :
    Except CsvError (List TemperatureReading) :=
  extract_from_xsense_csv content (extract_sensor_name filename)

example :
    extract_sensor_name ("Thermo-cabane_Exporter les données_20251104.csv".data)
      = "cabane".data := by decide

example :
    extract_from_xsense_csv
      ("Temps,Temperature,Humidite\n2025/11/04 23:59,15.0,84.0\n2025/11/04 23:58,15.1,83.2\n".data)
      ("cabane".data) =
    .ok [⟨"cabane".data, ⟨2025, 11, 4, 23, 59⟩, .fin 15, some (.fin 84),
          some ("cabane".data)⟩,
         ⟨"cabane".data, ⟨2025, 11, 4, 23, 58⟩, .fin (mkRat 151 10),
          some (.fin (mkRat 416 5)), some ("cabane".data)⟩] := by decide

/-- C4: in tabular CSV extraction, a data row with fewer than 3 values is
skipped and processing continues with the following rows, but a row whose
timestamp (format YYYY/MM/DD HH:MM), temperature, or humidity value fails
to type-parse causes extraction of the entire attachment to fail with
line-number and offending-value context; the extractor runs the row loop
whenever the header passes. -/
theorem C4_row_tolerance_asymmetry :
    (∀ sensor i r rows, r.length < 3 →
      processRows sensor i (r :: rows) = processRows sensor (i + 1) rows) ∧
    (∀ sensor i r rows, 3 ≤ r.length →
      parse_xsense_timestamp (r.getD 0 []) = none →
      processRows sensor i (r :: rows) =
        .error (.timestampError (r.getD 0 []) (i + 2))) ∧
    (∀ sensor i r rows ts, 3 ≤ r.length →
      parse_xsense_timestamp (r.getD 0 []) = some ts →
      rustParseF64 (r.getD 1 []) = none →
      processRows sensor i (r :: rows) =
        .error (.temperatureError (r.getD 1 []) (i + 2))) ∧
    (∀ sensor i r rows ts temp, 3 ≤ r.length →
      parse_xsense_timestamp (r.getD 0 []) = some ts →
      rustParseF64 (r.getD 1 []) = some temp →
      rustParseF64 (r.getD 2 []) = none →
      processRows sensor i (r :: rows) =
        .error (.humidityError (r.getD 2 []) (i + 2))) ∧
    (∀ content sensor, ¬ ((csvRecords content).getD 0 []).length < 3 →
      extract_from_xsense_csv content sensor =
        processRows sensor 0 ((csvRecords content).drop 1)) := by
  refine ⟨?_, ?_, ?_, ?_, ?_⟩
  · intro sensor i r rows h
    simp only [processRows, if_pos h]
  · intro sensor i r rows h ht
    simp only [processRows, if_neg (Nat.not_lt.mpr h)]
    rw [ht]
  · intro sensor i r rows ts h ht h1
    simp only [processRows, if_neg (Nat.not_lt.mpr h)]
    rw [ht, h1]
  · intro sensor i r rows ts temp h ht h1 h2
    simp only [processRows, if_neg (Nat.not_lt.mpr h)]
    rw [ht, h1, h2]
  · intro content sensor h
    unfold extract_from_xsense_csv
    rw [if_neg h]

/-- Witness for C4: each clause at a concrete row. -/
theorem C4_row_tolerance_asymmetry_witness :
    processRows ("s".data) 0 [["a".data, "b".data]] =
      processRows ("s".data) 1 [] ∧
    processRows ("s".data) 0 [["bad".data, "1.0".data, "2.0".data]] =
      .error (.timestampError ("bad".data) 2) ∧
    processRows ("s".data) 0 [["2025/11/04 23:59".data, "x".data, "2.0".data]] =
      .error (.temperatureError ("x".data) 2) ∧
    processRows ("s".data) 0 [["2025/11/04 23:59".data, "1.0".data, "y".data]] =
      .error (.humidityError ("y".data) 2) ∧
    extract_from_xsense_csv ("a,b,c\n1,2".data) ("s".data) =
      processRows ("s".data) 0 ((csvRecords ("a,b,c\n1,2".data)).drop 1) :=
  ⟨C4_row_tolerance_asymmetry.1 ("s".data) 0 _ _ (by decide),
   C4_row_tolerance_asymmetry.2.1 ("s".data) 0 _ _ (by decide) (by decide),
   C4_row_tolerance_asymmetry.2.2.1 ("s".data) 0 _ _ ⟨2025, 11, 4, 23, 59⟩
     (by decide) (by decide) (by decide),
   C4_row_tolerance_asymmetry.2.2.2.1 ("s".data) 0 _ _ ⟨2025, 11, 4, 23, 59⟩
     (.fin 1) (by decide) (by decide) (by decide) (by decide),
   C4_row_tolerance_asymmetry.2.2.2.2 ("a,b,c\n1,2".data) ("s".data)
     (by decide)⟩

/-- C5: a CSV attachment whose header row has fewer than 3 columns makes
tabular extraction fail with the format error (propagated to the caller),
not an empty list of readings. -/
theorem C5_header_format_error (content sensor : List Char)
    (h : ((csvRecords content).getD 0 []).length < 3) :
    extract_from_xsense_csv content sensor =
      .error (.formatError ((csvRecords content).getD 0 []).length) := by
  unfold extract_from_xsense_csv
  exact if_pos h

/-- Witness for C5: a two-column header. -/
theorem C5_header_format_error_witness :
    extract_from_xsense_csv ("a,b\n1,2,3".data) ("s".data) =
      .error (.formatError
        ((csvRecords ("a,b\n1,2,3".data)).getD 0 []).length) ∧
    ((csvRecords ("a,b\n1,2,3".data)).getD 0 []).length = 2 :=
  ⟨C5_header_format_error ("a,b\n1,2,3".data) ("s".data) (by decide),
   by decide⟩

/-- C9 counterexample: for the attachment named `.csv` (empty stem) with a
temperature field `inf`, extraction succeeds and produces a reading whose
`sensor_id` is the empty string and whose temperature is an f64 infinity —
violating both parts of the claimed invariant. -/
theorem C9_counterexample :
    extract_from_attachment_csv (".csv".data)
      ("Time,Temp,Hum\n2025/11/04 23:59,inf,50.0".data) =
      .ok [⟨[], ⟨2025, 11, 4, 23, 59⟩, .inf false, some (.fin 50), some []⟩] ∧
    FVal.isFinite (.inf false) = false := by decide

theorem processRows_invariant (sensor : List Char) :
    ∀ (rows : List (List (List Char))) (i : Nat)
      (rs : List TemperatureReading),
      (∀ r ∈ rows, (rustParseF64 (r.getD 1 [])).all FVal.isFinite = true) →
      processRows sensor i rows = .ok rs →
      ∀ rd ∈ rs, rd.sensor_id = sensor ∧ rd.temperature.isFinite = true := by
  intro rows
  induction rows with
  | nil =>
    intro i rs _ h rd hrd
    simp only [processRows] at h
    cases h
    simp at hrd
  | cons r rest ih =>
    intro i rs hf h rd hrd
    by_cases hlen : r.length < 3
    · simp only [processRows, if_pos hlen] at h
      exact ih (i + 1) rs (fun q hq => hf q (List.mem_cons_of_mem r hq)) h
        rd hrd
    · simp only [processRows, if_neg hlen] at h
      cases hts : parse_xsense_timestamp (r.getD 0 []) with
      | none => rw [hts] at h; cases h
      | some ts =>
        rw [hts] at h
        cases htemp : rustParseF64 (r.getD 1 []) with
        | none => rw [htemp] at h; cases h
        | some temp =>
          rw [htemp] at h
          cases hhum : rustParseF64 (r.getD 2 []) with
          | none => rw [hhum] at h; cases h
          | some hum =>
            rw [hhum] at h
            have htf : temp.isFinite = true := by
              have := hf r (List.mem_cons_self r rest)
              rw [htemp] at this
              simpa [Option.all] using this
            cases hrec : processRows sensor (i + 1) rest with
            | error e => rw [hrec] at h; cases h
            | ok rs' =>
              rw [hrec] at h
              simp only [Except.map] at h
              cases h
              rcases List.mem_cons.mp hrd with hhead | htail
              · subst hhead
                exact ⟨rfl, htf⟩
              · exact ih (i + 1) rs'
                  (fun q hq => hf q (List.mem_cons_of_mem r hq)) hrec rd htail

/-- C9 (amended): every TemperatureReading produced by a successful run of
the tabular CSV extractor carries the sensor name derived from the
filename as its `sensor_id`; the invariant (`sensor_id` non-empty,
temperature finite) holds provided the derived sensor name is non-empty
(the fallback yields the empty string for a filename whose part before
the first dot is empty, such as `.csv`) and no temperature field parses
to an infinity or NaN (Rust's f64 parser accepts `inf`, `infinity`, `nan`
and overflowing decimals). -/
theorem C9_invariant (filename content : List Char)
    (rs : List TemperatureReading)
    (hs : extract_sensor_name filename ≠ [])
    (hf : ∀ r ∈ (csvRecords content).drop 1,
        (rustParseF64 (r.getD 1 [])).all FVal.isFinite = true)
    (h : extract_from_attachment_csv filename content = .ok rs) :
    ∀ rd ∈ rs, rd.sensor_id ≠ [] ∧ rd.temperature.isFinite = true ∧
      rd.sensor_id = extract_sensor_name filename := by
  intro rd hrd
  unfold extract_from_attachment_csv extract_from_xsense_csv at h
  by_cases hh : ((csvRecords content).getD 0 []).length < 3
  · rw [if_pos hh] at h
    exact (Except.noConfusion h)
  · rw [if_neg hh] at h
    have := processRows_invariant (extract_sensor_name filename)
      ((csvRecords content).drop 1) 0 rs hf h rd hrd
    exact ⟨this.1 ▸ hs, this.2, this.1⟩

/-- Witness for C9 at a concrete well-formed attachment. -/
theorem C9_invariant_witness :
    (⟨"data".data, ⟨2025, 11, 4, 23, 59⟩, .fin 15, some (.fin 84),
      some ("data".data)⟩ : TemperatureReading).sensor_id ≠ [] ∧
    (⟨"data".data, ⟨2025, 11, 4, 23, 59⟩, .fin 15, some (.fin 84),
      some ("data".data)⟩ : TemperatureReading).temperature.isFinite = true ∧
    (⟨"data".data, ⟨2025, 11, 4, 23, 59⟩, .fin 15, some (.fin 84),
      some ("data".data)⟩ : TemperatureReading).sensor_id =
      extract_sensor_name ("data.csv".data) :=
  C9_invariant ("data.csv".data)
    ("Time,Temp,Hum\n2025/11/04 23:59,15.0,84.0".data)
    [⟨"data".data, ⟨2025, 11, 4, 23, 59⟩, .fin 15, some (.fin 84),
      some ("data".data)⟩]
    (by decide) (by decide) (by decide) _ (List.mem_singleton.mpr rfl)

theorem stripPrefixList_eq (p : List Char) :
    ∀ l r, stripPrefixList p l = some r → l = p ++ r := by
  induction p with
  | nil =>
    intro l r h
    simp only [stripPrefixList, Option.some.injEq] at h
    rw [h, List.nil_append]
  | cons a ps ih =>
    intro l r h
    cases l with
    | nil => simp [stripPrefixList] at h
    | cons c cs =>
      simp only [stripPrefixList] at h
      by_cases hca : c = a
      · rw [if_pos hca] at h
        rw [List.cons_append, hca, ih cs r h]
      · rw [if_neg hca] at h
        cases h

theorem stripPrefixList_append (p l : List Char) :
    stripPrefixList p (p ++ l) = some l := by
  induction p with
  | nil => rfl
  | cons a ps ih => simp [stripPrefixList, ih]

theorem takeWhile_append_stop {p : Char → Bool} (name : List Char)
    (h : ∀ c ∈ name, p c = true) (x : Char) (hx : p x = false)
    (post : List Char) :
    (name ++ x :: post).takeWhile p = name := by
  induction name with
  | nil => simp [List.takeWhile_cons, hx]
  | cons a t ih =>
    rw [List.cons_append, List.takeWhile_cons,
      if_pos (h a (List.mem_cons_self a t)),
      ih (fun c hc => h c (List.mem_cons_of_mem a hc))]

theorem dropWhile_head_false {p : Char → Bool} :
    ∀ (l : List Char) d ds, l.dropWhile p = d :: ds → p d = false := by
  intro l
  induction l with
  | nil => intro d ds h; simp [List.dropWhile] at h
  | cons a t ih =>
    intro d ds h
    rw [List.dropWhile_cons] at h
    by_cases hp : p a = true
    · rw [if_pos hp] at h
      exact ih d ds h
    · rw [if_neg hp] at h
      cases h
      exact Bool.eq_false_iff.mpr hp

theorem thermoCapture_cons_none (c : Char) (rest : List Char)
    (h : stripPrefixList thermoPat (c :: rest) = none) :
    thermoCapture (c :: rest) = thermoCapture rest := by
  simp only [thermoCapture, h]

theorem thermoCapture_cons_some (c : Char) (rest after : List Char)
    (h : stripPrefixList thermoPat (c :: rest) = some after) :
    thermoCapture (c :: rest) =
      if after.takeWhile (fun ch => ch ≠ '_') ≠ [] ∧
          (after.takeWhile (fun ch => ch ≠ '_')).length < after.length then
        some (after.takeWhile (fun ch => ch ≠ '_'))
      else thermoCapture rest := by
  simp only [thermoCapture, h]

/-- A filename matches the regex `Thermo-([^_]+)_` with capture `name`:
somewhere in it, the literal `Thermo-` is followed by the non-empty
underscore-free `name` and then a `_`. -/
def matchesThermo (filename name : List Char) : Prop :=
  name ≠ [] ∧ '_' ∉ name ∧
  ∃ pre post, filename = pre ++ (thermoPat ++ (name ++ '_' :: post))

theorem thermoCapture_sound :
    ∀ l r, thermoCapture l = some r → matchesThermo l r := by
  intro l
  induction l with
  | nil => intro r h; simp [thermoCapture] at h
  | cons c rest ih =>
    intro r h
    cases hsp : stripPrefixList thermoPat (c :: rest) with
    | none =>
      rw [thermoCapture_cons_none c rest hsp] at h
      obtain ⟨hne, hnu, pre, post, heq⟩ := ih r h
      exact ⟨hne, hnu, c :: pre, post, by rw [List.cons_append, heq]⟩
    | some after =>
      rw [thermoCapture_cons_some c rest after hsp] at h
      by_cases hc : after.takeWhile (fun ch => ch ≠ '_') ≠ [] ∧
          (after.takeWhile (fun ch => ch ≠ '_')).length < after.length
      · rw [if_pos hc] at h
        have hr : after.takeWhile (fun ch => ch ≠ '_') = r :=
          Option.some.inj h
        have hl : c :: rest = thermoPat ++ after :=
          stripPrefixList_eq thermoPat _ after hsp
        have hsplit : after.takeWhile (fun ch => ch ≠ '_') ++
            after.dropWhile (fun ch => ch ≠ '_') = after :=
          List.takeWhile_append_dropWhile _ _
        have hdne : after.dropWhile (fun ch => ch ≠ '_') ≠ [] := by
          intro hnil
          rw [hnil, List.append_nil] at hsplit
          rw [hsplit] at hc
          exact absurd hc.2 (lt_irrefl _)
        obtain ⟨d, ds, hds⟩ := List.exists_cons_of_ne_nil hdne
        have hd : d = '_' := by
          have := dropWhile_head_false after d ds hds
          simpa using this
        refine ⟨hr ▸ hc.1, ?_, [], ds, ?_⟩
        · intro hmem
          rw [← hr] at hmem
          have := List.mem_takeWhile_imp hmem
          simp at this
        · rw [List.nil_append, hl, ← hsplit, hds, hd, hr]
      · rw [if_neg hc] at h
        obtain ⟨hne, hnu, pre, post, heq⟩ := ih r h
        exact ⟨hne, hnu, c :: pre, post, by rw [List.cons_append, heq]⟩

theorem thermoCapture_complete (name : List Char) (hne : name ≠ [])
    (hnu : '_' ∉ name) :
    ∀ (pre post : List Char),
      (thermoCapture (pre ++ (thermoPat ++ (name ++ '_' :: post)))).isSome
        = true := by
  intro pre
  induction pre with
  | nil =>
    intro post
    rw [List.nil_append]
    have hrun : (name ++ '_' :: post).takeWhile (fun ch => ch ≠ '_') = name :=
      takeWhile_append_stop name
        (fun x hx => by
          have hxne : x ≠ '_' := fun heq => hnu (heq ▸ hx)
          simp [hxne])
        '_' (by simp) post
    have hsp : stripPrefixList thermoPat
        ('T' :: 'h' :: 'e' :: 'r' :: 'm' :: 'o' :: '-' ::
          (name ++ '_' :: post)) = some (name ++ '_' :: post) :=
      stripPrefixList_append thermoPat _
    rw [show thermoPat ++ (name ++ '_' :: post) =
        'T' :: ('h' :: 'e' :: 'r' :: 'm' :: 'o' :: '-' ::
          (name ++ '_' :: post)) from rfl]
    rw [thermoCapture_cons_some _ _ _ hsp, hrun]
    rw [if_pos ⟨hne, by rw [List.length_append, List.length_cons]; omega⟩]
    rfl
  | cons a pre ih =>
    intro post
    rw [List.cons_append]
    cases hsp : stripPrefixList thermoPat
        (a :: (pre ++ (thermoPat ++ (name ++ '_' :: post)))) with
    | none =>
      rw [thermoCapture_cons_none _ _ hsp]
      exact ih post
    | some after =>
      rw [thermoCapture_cons_some _ _ _ hsp]
      by_cases hc : after.takeWhile (fun ch => ch ≠ '_') ≠ [] ∧
          (after.takeWhile (fun ch => ch ≠ '_')).length < after.length
      · rw [if_pos hc]
        rfl
      · rw [if_neg hc]
        exact ih post

/-- Modelled from the spec's words, for comparison in C6: "the filename
without its extension" — the filename with the segment from its last `.`
on removed (the whole filename when it contains no dot). -/
def specFilenameStem (filename : List Char) : List Char :=
  if filename.any (fun c => c == '.') then
    ((filename.reverse.dropWhile (fun c => c ≠ '.')).drop 1).reverse
  else filename

/-- C6 counterexample: `a.b.csv` does not match the `Thermo-` pattern; the
claim says the fallback returns the filename without its extension
(`a.b`), but the code returns the part before the *first* dot (`a`). -/
theorem C6_counterexample :
    thermoCapture ("a.b.csv".data) = none ∧
    extract_sensor_name ("a.b.csv".data) = "a".data ∧
    specFilenameStem ("a.b.csv".data) = "a.b".data ∧
    ("a".data : List Char) ≠ "a.b".data := by decide

/-- C6 (amended): whenever the filename matches the pattern
`Thermo-<name>_`, `extract_sensor_name` returns such a captured token (in
particular `cabane` for the spec's example); for every filename not
matching the pattern it returns the prefix of the filename before its
first `.` (the whole filename when it has no dot). -/
theorem C6_sensor_name :
    (∀ filename, (∃ name, matchesThermo filename name) →
      matchesThermo filename (extract_sensor_name filename)) ∧
    (∀ filename, (¬ ∃ name, matchesThermo filename name) →
      extract_sensor_name filename =
        filename.takeWhile (fun c => c ≠ '.')) ∧
    extract_sensor_name
        ("Thermo-cabane_Exporter les données_20251104.csv".data)
      = "cabane".data := by
  refine ⟨?_, ?_, by decide⟩
  · rintro filename ⟨name, hne, hnu, pre, post, heq⟩
    have hsome : (thermoCapture filename).isSome = true := by
      rw [heq]
      exact thermoCapture_complete name hne hnu pre post
    unfold extract_sensor_name
    cases htc : thermoCapture filename with
    | none => rw [htc] at hsome; cases hsome
    | some r =>
      have := thermoCapture_sound filename r htc
      simpa using this
  · intro filename hno
    unfold extract_sensor_name
    cases htc : thermoCapture filename with
    | none => rfl
    | some r => exact absurd ⟨r, thermoCapture_sound filename r htc⟩ hno

/-- Witness for C6 at a concrete matching filename. -/
theorem C6_sensor_name_witness :
    matchesThermo ("Thermo-x_y.csv".data)
      (extract_sensor_name ("Thermo-x_y.csv".data)) :=
  C6_sensor_name.1 ("Thermo-x_y.csv".data)
    ⟨"x".data, by decide, by decide, [], "y.csv".data, by decide⟩

/-- Leftmost-first regex search: try the at-position matcher at every
start position, earliest success wins (none of the modelled patterns can
match the empty suffix). -/
def scanFor {α : Type} (f : List Char → Option α) : List Char → Option α
  | [] => none
  | c :: rest =>
    match f (c :: rest) with
    | some a => some a
    | none => scanFor f rest

/-- ASCII case-insensitive literal match (the `(?i)` literals of these
patterns are ASCII; Unicode case folding beyond ASCII is not exercised by
them), returning the remainder. -/
def matchCI : List Char → List Char → Option (List Char)
  | [], l => some l
  | _ :: _, [] => none
  | p :: ps, c :: cs => if c.toLower = p then matchCI ps cs else none

/-- The `[:\s]` character class. -/
def isColonWs (c : Char) : Bool := c == ':' || rustIsWhitespace c

/-- The capture `([0-9]+[.,][0-9]+)` at the current position, with the
comma-to-dot normalization and `parse::<f64>()` applied (always succeeds
on this shape): yields the parsed value and the remainder. -/
def capDecimal (l : List Char) : Option (FVal × List Char) :=
  let d1 := l.takeWhile Char.isDigit
  let r1 := l.dropWhile Char.isDigit
  if d1.isEmpty then none
  else
    match r1 with
    | sep :: rest =>
      if sep = '.' ∨ sep = ',' then
        let d2 := rest.takeWhile Char.isDigit
        if d2.isEmpty then none
        else some (mkF64 false (natOfDigits (d1 ++ d2)) 0 d2.length,
                   rest.dropWhile Char.isDigit)
      else none
    | [] => none

/-- The capture `([0-9]+)` at the current position. -/
def capDigits (l : List Char) : Option (List Char × List Char) :=
  let ds := l.takeWhile Char.isDigit
  if ds.isEmpty then none else some (ds, l.dropWhile Char.isDigit)

/-- `(?i)temp[ée]rature[:\s]+([0-9]+[.,][0-9]+)` at one position. -/
def tempPat1At (l : List Char) : Option FVal :=
  match matchCI ("temp".data) l with
  | none => none
  | some r1 =>
    match r1 with
    | e :: r2 =>
      if e = 'e' ∨ e = 'E' ∨ e = 'é' ∨ e = 'É' then
        match matchCI ("rature".data) r2 with
        | none => none
        | some r3 =>
          if (r3.takeWhile isColonWs).isEmpty then none
          else (capDecimal (r3.dropWhile isColonWs)).map Prod.fst
      else none
    | [] => none

/-- `(?i)temp[:\s]+([0-9]+[.,][0-9]+)` at one position. -/
def tempPat2At (l : List Char) : Option FVal :=
  match matchCI ("temp".data) l with
  | none => none
  | some r =>
    if (r.takeWhile isColonWs).isEmpty then none
    else (capDecimal (r.dropWhile isColonWs)).map Prod.fst

/-- `([0-9]+[.,][0-9]+)\s*°C` (case-sensitive) at one position. -/
def tempPat3At (l : List Char) : Option FVal :=
  match capDecimal l with
  | none => none
  | some (v, rest) =>
    match rest.dropWhile rustIsWhitespace with
    | '°' :: 'C' :: _ => some v
    | _ => none

/-- `extract_temperature` (blueriot/extractor.rs:51-75): first pattern
that matches wins; no range check. -/
def extract_temperature (text : List Char) : Option FVal :=
  match scanFor tempPat1At text with
  | some v => some v
  | none =>
    match scanFor tempPat2At text with
    | some v => some v
    | none => scanFor tempPat3At text

/-- `(?i)ph[:\s]+([0-9]+[.,][0-9]+)` at one position. -/
def phPat1At (l : List Char) : Option FVal :=
  match matchCI ("ph".data) l with
  | none => none
  | some r =>
    if (r.takeWhile isColonWs).isEmpty then none
    else (capDecimal (r.dropWhile isColonWs)).map Prod.fst

/-- `(?i)ph\s*=\s*([0-9]+[.,][0-9]+)` at one position. -/
def phPat2At (l : List Char) : Option FVal :=
  match matchCI ("ph".data) l with
  | none => none
  | some r =>
    match expectChar '=' (r.dropWhile rustIsWhitespace) with
    | none => none
    | some r2 => (capDecimal (r2.dropWhile rustIsWhitespace)).map Prod.fst

/-- The pH range gate `(0.0..=14.0).contains(&ph)`
(blueriot/extractor.rs:92): accepted only for a finite value in range
(comparisons with an infinity or NaN fail). -/
def phInRange : FVal → Option ℚ
  | .fin q => if 0 ≤ q ∧ q ≤ 14 then some q else none
  | _ => none

/-- `extract_ph` (blueriot/extractor.rs:79-106): for each pattern in
order, take its leftmost capture; return it when within `[0, 14]`,
otherwise fall through to the next pattern. -/
def extract_ph (text : List Char) : Option ℚ :=
  match (scanFor phPat1At text).bind phInRange with
  | some q => some q
  | none => (scanFor phPat2At text).bind phInRange

/-- `(?i)orp[:\s]+([0-9]+)\s*m?V?` at one position (the trailing
`\s*m?V?` is entirely optional and constrains nothing). -/
def orpPat1At (l : List Char) : Option (List Char) :=
  match matchCI ("orp".data) l with
  | none => none
  | some r =>
    if (r.takeWhile isColonWs).isEmpty then none
    else (capDigits (r.dropWhile isColonWs)).map Prod.fst

/-- `(?i)redox[:\s]+([0-9]+)\s*m?V?` at one position. -/
def orpPat2At (l : List Char) : Option (List Char) :=
  match matchCI ("redox".data) l with
  | none => none
  | some r =>
    if (r.takeWhile isColonWs).isEmpty then none
    else (capDigits (r.dropWhile isColonWs)).map Prod.fst

/-- `([0-9]+)\s*mV` (case-sensitive `mV`) at one position. -/
def orpPat3At (l : List Char) : Option (List Char) :=
  match capDigits l with
  | none => none
  | some (ds, rest) =>
    match rest.dropWhile rustIsWhitespace with
    | 'm' :: 'V' :: _ => some ds
    | _ => none

/-- `parse::<i32>()` (fails above `i32::MAX`; the capture has no sign)
followed by the range gate `(0..=1000).contains(&orp)`
(blueriot/extractor.rs:121-123); a failure of either falls through to the
next pattern. -/
def orpFromDigits (ds : List Char) : Option Nat :=
  let n := natOfDigits ds
  if n ≤ 2147483647 then (if n ≤ 1000 then some n else none) else none

/-- `extract_orp` (blueriot/extractor.rs:110-137). -/
def extract_orp (text : List Char) : Option Nat :=
  match (scanFor orpPat1At text).bind orpFromDigits with
  | some n => some n
  | none =>
    match (scanFor orpPat2At text).bind orpFromDigits with
    | some n => some n
    | none => (scanFor orpPat3At text).bind orpFromDigits

/-- `PoolReading` (blueriot/extractor.rs:5-11); the timestamp is an
opaque instant passed through. -/
structure PoolReading where
  timestamp : Nat
  temperature : Option FVal
  ph : Option ℚ
  orp : Option Nat
deriving DecidableEq

/-- `extract_pool_metrics` (blueriot/extractor.rs:19-47): the three
extractors run independently; if all three found nothing the call fails,
otherwise the reading is returned. -/
def extract_pool_metrics (text : List Char) (timestamp : Nat) :
    Except Unit PoolReading :=
  let t := extract_temperature text
  let p := extract_ph text
  let o := extract_orp text
  if t.isNone && p.isNone && o.isNone then .error ()
  else .ok ⟨timestamp, t, p, o⟩

example : extract_temperature ("Temperature: 25.5°C".data) =
    some (.fin (mkRat 51 2)) := by decide
example : extract_ph ("pH: 7.2".data) = some (mkRat 36 5) := by decide
example : extract_ph ("pH: 15.0".data) = none := by decide
example : extract_orp ("ORP: 720 mV".data) = some 720 := by decide
example : extract_orp ("ORP: 2000".data) = none := by decide

theorem phInRange_sound (v : FVal) (q : ℚ) (h : phInRange v = some q) :
    0 ≤ q ∧ q ≤ 14 := by
  cases v with
  | fin x =>
    simp only [phInRange] at h
    by_cases hr : 0 ≤ x ∧ x ≤ 14
    · rw [if_pos hr] at h
      cases h
      exact hr
    · rw [if_neg hr] at h
      cases h
  | inf b => simp [phInRange] at h
  | nan => simp [phInRange] at h

theorem orpFromDigits_le (ds : List Char) (n : Nat)
    (h : orpFromDigits ds = some n) : n ≤ 1000 := by
  simp only [orpFromDigits] at h
  by_cases h1 : natOfDigits ds ≤ 2147483647
  · rw [if_pos h1] at h
    by_cases h2 : natOfDigits ds ≤ 1000
    · rw [if_pos h2] at h
      cases h
      exact h2
    · rw [if_neg h2] at h
      cases h
  · rw [if_neg h1] at h
    cases h

/-- C7: in freeform pool extraction, a pH value is accepted only within
[0, 14] and an ORP value only within [0, 1000] (ORP values are captured
unsigned, so the lower bounds hold by construction); a syntactically
matching value outside the range is treated as not found for that pattern
and scanning continues with the remaining patterns; for the text
"pH: 15.0" the resulting ph is None. -/
theorem C7_range_validation :
    (∀ text q, extract_ph text = some q → 0 ≤ q ∧ q ≤ 14) ∧
    (∀ text n, extract_orp text = some n → n ≤ 1000) ∧
    extract_ph ("pH: 15.0".data) = none ∧
    (∀ text v q, scanFor phPat1At text = some v → phInRange v = none →
      (scanFor phPat2At text).bind phInRange = some q →
      extract_ph text = some q) := by
  refine ⟨?_, ?_, by decide, ?_⟩
  · intro text q h
    unfold extract_ph at h
    cases h1 : (scanFor phPat1At text).bind phInRange with
    | some q' =>
      rw [h1] at h
      cases h
      obtain ⟨v, _, hv⟩ := Option.bind_eq_some.mp h1
      exact phInRange_sound v _ hv
    | none =>
      rw [h1] at h
      obtain ⟨v, _, hv⟩ := Option.bind_eq_some.mp h
      exact phInRange_sound v q hv
  · intro text n h
    unfold extract_orp at h
    cases h1 : (scanFor orpPat1At text).bind orpFromDigits with
    | some n' =>
      rw [h1] at h
      cases h
      obtain ⟨ds, _, hds⟩ := Option.bind_eq_some.mp h1
      exact orpFromDigits_le ds _ hds
    | none =>
      rw [h1] at h
      cases h2 : (scanFor orpPat2At text).bind orpFromDigits with
      | some n' =>
        rw [h2] at h
        cases h
        obtain ⟨ds, _, hds⟩ := Option.bind_eq_some.mp h2
        exact orpFromDigits_le ds _ hds
      | none =>
        rw [h2] at h
        obtain ⟨ds, _, hds⟩ := Option.bind_eq_some.mp h
        exact orpFromDigits_le ds n hds
  · intro text v q h1 h2 h3
    unfold extract_ph
    rw [h1]
    simp only [Option.some_bind, h2, h3]

/-- Witness for C7: an out-of-range pattern-1 match does not stop
pattern 2 from matching, and the ORP bound at a concrete text. -/
theorem C7_range_validation_witness :
    extract_ph ("ph: 15.5 ph = 7.2".data) = some (mkRat 36 5) ∧
    (720 : Nat) ≤ 1000 :=
  ⟨C7_range_validation.2.2.2 ("ph: 15.5 ph = 7.2".data)
      (.fin (mkRat 31 2)) (mkRat 36 5) (by decide) (by decide) (by decide),
   C7_range_validation.2.1 ("ORP: 720 mV".data) 720 (by decide)⟩

/-- C8: extract_pool_metrics returns an error exactly when none of
temperature, pH and ORP is found in the text; when at least one is found
it succeeds, and every PoolReading it returns carries at least one of the
three fields. -/
theorem C8_pool_metrics (text : List Char) (ts : Nat) :
    (extract_pool_metrics text ts = .error () ↔
      extract_temperature text = none ∧ extract_ph text = none ∧
        extract_orp text = none) ∧
    (∀ r, extract_pool_metrics text ts = .ok r →
      (r.temperature.isSome || r.ph.isSome || r.orp.isSome) = true) := by
  unfold extract_pool_metrics
  by_cases hc : ((extract_temperature text).isNone &&
      (extract_ph text).isNone && (extract_orp text).isNone) = true
  · rw [if_pos hc]
    simp only [Bool.and_eq_true, Option.isNone_iff_eq_none] at hc
    constructor
    · exact ⟨fun _ => ⟨hc.1.1, hc.1.2, hc.2⟩, fun _ => rfl⟩
    · intro r h
      exact Except.noConfusion h
  · rw [if_neg hc]
    constructor
    · constructor
      · intro h
        exact Except.noConfusion h
      · intro ⟨h1, h2, h3⟩
        exact absurd (by rw [h1, h2, h3]; rfl) hc
    · intro r h
      cases h
      rcases ht : extract_temperature text with _ | vt <;>
        rcases hp : extract_ph text with _ | vp <;>
          rcases ho : extract_orp text with _ | vo <;>
            simp_all

/-- Witness for C8 at the spec's pool-status text. -/
theorem C8_pool_metrics_witness :
    ((⟨0, some (.fin (mkRat 51 2)), some (mkRat 36 5),
        some 720⟩ : PoolReading).temperature.isSome ||
      (⟨0, some (.fin (mkRat 51 2)), some (mkRat 36 5),
        some 720⟩ : PoolReading).ph.isSome ||
      (⟨0, some (.fin (mkRat 51 2)), some (mkRat 36 5),
        some 720⟩ : PoolReading).orp.isSome) = true :=
  (C8_pool_metrics ("Temperature: 25.5°C\npH: 7.2\nORP: 720 mV".data) 0).2
    ⟨0, some (.fin (mkRat 51 2)), some (mkRat 36 5), some 720⟩ (by decide)

/-- A body part reported by the external MIME parser (its contract: raw
content bytes plus an optional attachment name). -/
structure MimePart where
  contents : List Nat
  attachment_name : Option (List Char)
deriving DecidableEq

/-- `Attachment` (attachment_parser.rs:9-14). -/
structure Attachment where
  filename : List Char
  content : List Nat
  content_type : List Char
deriving DecidableEq

/-- `AttachmentParser::guess_content_type` (attachment_parser.rs:379-396):
extension (lowercased) to MIME type, defaulting to octet-stream. -/
def guess_content_type (filename : List Char) : List Char :=
  let lower := filename.map Char.toLower
  if (".csv".data).isSuffixOf lower then "text/csv".data
  else if (".json".data).isSuffixOf lower then "application/json".data
  else if (".xml".data).isSuffixOf lower then "application/xml".data
  else if (".txt".data).isSuffixOf lower then "text/plain".data
  else if (".xlsx".data).isSuffixOf lower then
    "application/vnd.openxmlformats-officedocument.spreadsheetml.sheet".data
  else if (".xls".data).isSuffixOf lower then "application/vnd.ms-excel".data
  else "application/octet-stream".data

/-- `AttachmentParser::try_mail_parser_fallback`
(attachment_parser.rs:211-248) with
`extract_real_filename_from_part` (attachment_parser.rs:250-259) inlined:
for each part in order, `part.attachment_name().unwrap()` — a panic,
modelled as the error case aborting the whole call — is evaluated before
the size check; a part with more than 10 content bytes is emitted with
its raw content and a content type guessed from the filename, a smaller
part is skipped. -/
def try_mail_parser_fallback : List MimePart → Except Unit (List Attachment)
  | [] => .ok []
  | p :: rest =>
    match p.attachment_name with
    | none => .error ()
    | some name =>
      if p.contents.length > 10 then
        (try_mail_parser_fallback rest).map
          (fun atts => ⟨name, p.contents, guess_content_type name⟩ :: atts)
      else try_mail_parser_fallback rest

/-- The attachment (if any) that one part contributes when the fallback
reaches it. -/
def emitPart (p : MimePart) : Option Attachment :=
  match p.attachment_name with
  | some name =>
    if p.contents.length > 10 then
      some ⟨name, p.contents, guess_content_type name⟩
    else none
  | none => none

/-- C10 counterexample: the claim says a part with no filename is a hard
failure *for that part* and that every part with content > 10 bytes and a
filename is emitted.  In the code the `unwrap()` panic aborts the whole
fallback: with a nameless part first, the later well-formed part (11
bytes, named) is not emitted — no attachment list is produced at all. -/
theorem C10_counterexample :
    try_mail_parser_fallback
      [⟨List.replicate 11 0, none⟩,
       ⟨List.replicate 11 0, some ("a.csv".data)⟩] = .error () ∧
    (List.replicate 11 0).length > 10 := by decide

/-- C10 (amended): in fallback strategy 2, a part for which the parser
cannot produce a filename makes the whole fallback fail (an `unwrap`
panic — no attachment list is returned at all, and the failure is
triggered even for parts of ≤ 10 bytes); the fallback fails exactly when
some part lacks a filename.  When every part carries a filename, each
part with content length > 10 bytes is emitted, in order, as an
Attachment with its raw content and a content type guessed from the
filename, and each part with ≤ 10 bytes is discarded. -/
theorem C10_mail_fallback :
    (∀ parts, try_mail_parser_fallback parts = .error () ↔
      ∃ p ∈ parts, p.attachment_name = none) ∧
    (∀ parts atts, try_mail_parser_fallback parts = .ok atts →
      atts = parts.filterMap emitPart) := by
  constructor
  · intro parts
    induction parts with
    | nil =>
      constructor
      · intro h
        exact absurd h (by simp [try_mail_parser_fallback])
      · rintro ⟨p, hp, _⟩
        simp at hp
    | cons p rest ih =>
      cases hn : p.attachment_name with
      | none =>
        constructor
        · intro _
          exact ⟨p, List.mem_cons_self p rest, hn⟩
        · intro _
          simp [try_mail_parser_fallback, hn]
      | some nm =>
        have hred : try_mail_parser_fallback (p :: rest) =
            if p.contents.length > 10 then
              (try_mail_parser_fallback rest).map
                (fun atts => ⟨nm, p.contents, guess_content_type nm⟩ :: atts)
            else try_mail_parser_fallback rest := by
          simp [try_mail_parser_fallback, hn]
        constructor
        · intro h
          rw [hred] at h
          have hrest : try_mail_parser_fallback rest = .error () := by
            by_cases hl : p.contents.length > 10
            · rw [if_pos hl] at h
              cases hr : try_mail_parser_fallback rest with
              | error e => cases e; rfl
              | ok atts =>
                rw [hr] at h
                exact Except.noConfusion h
            · rw [if_neg hl] at h
              exact h
          obtain ⟨q, hq, hqn⟩ := ih.mp hrest
          exact ⟨q, List.mem_cons_of_mem p hq, hqn⟩
        · rintro ⟨q, hq, hqn⟩
          rcases List.mem_cons.mp hq with hqp | hqr
          · subst hqp
            rw [hn] at hqn
            cases hqn
          · have hrest := ih.mpr ⟨q, hqr, hqn⟩
            rw [hred, hrest]
            by_cases hl : p.contents.length > 10
            · rw [if_pos hl]
              rfl
            · rw [if_neg hl]
  · intro parts
    induction parts with
    | nil =>
      intro atts h
      simp only [try_mail_parser_fallback] at h
      cases h
      rfl
    | cons p rest ih =>
      intro atts h
      cases hn : p.attachment_name with
      | none =>
        rw [show try_mail_parser_fallback (p :: rest) = .error () by
          simp [try_mail_parser_fallback, hn]] at h
        exact Except.noConfusion h
      | some nm =>
        have hred : try_mail_parser_fallback (p :: rest) =
            if p.contents.length > 10 then
              (try_mail_parser_fallback rest).map
                (fun atts => ⟨nm, p.contents, guess_content_type nm⟩ :: atts)
            else try_mail_parser_fallback rest := by
          simp [try_mail_parser_fallback, hn]
        rw [hred] at h
        have hemit : emitPart p =
            if p.contents.length > 10 then
              some ⟨nm, p.contents, guess_content_type nm⟩
            else none := by
          simp [emitPart, hn]
        by_cases hl : p.contents.length > 10
        · rw [if_pos hl] at h
          cases hr : try_mail_parser_fallback rest with
          | error e =>
            rw [hr] at h
            exact Except.noConfusion h
          | ok atts' =>
            rw [hr] at h
            simp only [Except.map] at h
            cases h
            rw [List.filterMap_cons, hemit, if_pos hl, ih atts' hr]
        · rw [if_neg hl] at h
          rw [List.filterMap_cons, hemit, if_neg hl, ih atts h]

/-- Witness for C10: the failure case with a nameless part, and the
emission case with one large named part and one small part. -/
theorem C10_mail_fallback_witness :
    try_mail_parser_fallback [⟨List.replicate 3 7, none⟩] = .error () ∧
    ([⟨"b.csv".data, List.replicate 12 1, "text/csv".data⟩] :
        List Attachment) =
      [⟨List.replicate 12 1, some ("b.csv".data)⟩,
       (⟨[5], some ("c.json".data)⟩ : MimePart)].filterMap emitPart :=
  ⟨(C10_mail_fallback.1 [⟨List.replicate 3 7, none⟩]).mpr
      ⟨⟨List.replicate 3 7, none⟩, List.mem_singleton.mpr rfl, rfl⟩,
   C10_mail_fallback.2
      [⟨List.replicate 12 1, some ("b.csv".data)⟩,
       ⟨[5], some ("c.json".data)⟩]
      [⟨"b.csv".data, List.replicate 12 1, "text/csv".data⟩] (by decide)⟩
